import Mathlib

/-!
Formal model of the AI leaderboard scraper (src/scraper.py).

The scraper fetches three leaderboard pages, extracts (name, score) rows from
every HTML table on each page, classifies a provider from the model name, falls
back to a static table when a pipeline raises, sorts each list descending by
score, and writes one JSON snapshot.

Modelling choices:
- a rendered page is modelled after the point where BeautifulSoup has parsed
  it: a list of tables, each table a list of rows, each row the list of the
  trimmed cell texts produced by get_text with strip enabled;
- Python floats are modelled as rationals: every comparison the program makes
  on scores (range guards, sort order) agrees with the rational semantics for
  the decimal magnitudes involved;
- a fetch is modelled as an Except value: ok with the parsed page when the
  try-block body reaches the extraction loop, error when any exception is
  raised (launch, navigation, capture); the extraction loop itself is total;
- file output and printing are outside the model.
-/

/-- A leaderboard entry: the dictionary with keys name, provider, score that
the scraper appends to one of the three lists. -/
structure Entry where
  name : String
  provider : String
  score : ℚ
deriving DecidableEq

/-- Whether the character list `sub` occurs at the head of `cs`. -/
def leadMatch : List Char → List Char → Bool
  | [], _ => true
  | _ :: _, [] => false
  | a :: xs, b :: ys => a == b && leadMatch xs ys

/-- Whether `needle` occurs contiguously anywhere in the second list. -/
def subSearch (needle : List Char) : List Char → Bool
  | [] => leadMatch needle []
  | c :: cs => leadMatch needle (c :: cs) || subSearch needle cs

/-- Model of the Python expression `sub in hay` on strings: contiguous
substring containment. -/
def strContains (hay sub : String) : Bool :=
  subSearch sub.toList hay.toList

/-- Model of Python str.lower: character-wise lower-casing. -/
def lowerStr (s : String) : String :=
  ⟨s.data.map Char.toLower⟩

/-- Model of `AILoaderboardScraper._extract_provider` (src/scraper.py lines
174-198): lower-case the name and walk the if/elif chain of substring tests. -/
def extract_provider (name : String) : String :=
  let nl := lowerStr name
  if strContains nl "claude" then "Anthropic"
  else if strContains nl "gpt" || strContains nl "openai" then "OpenAI"
  else if strContains nl "gemini" || strContains nl "google" then "Google"
  else if strContains nl "kimi" || strContains nl "moonshot" then "Moonshot AI"
  else if strContains nl "glm" then "Z AI"
  else if strContains nl "qwen" then "Alibaba"
  else if strContains nl "deepseek" then "DeepSeek"
  else if strContains nl "minimax" then "Minimax"
  else if strContains nl "llama" || strContains nl "meta" then "Meta"
  else if strContains nl "mistral" then "Mistral"
  else "Unknown"

/-- The exclusion tokens of scrape_artificial_analysis (line 75). -/
def tokensII : List String := ["rank", "model", "elo", "score"]

/-- The exclusion tokens of scrape_swebench (line 120). -/
def tokensSwe : List String := ["rank", "model", "%", "resolved"]

/-- The exclusion tokens of scrape_hle (line 162). -/
def tokensHle : List String := ["rank", "model", "accuracy", "score"]

/-- Model of the guard `if name and not any(x in name.lower() for x in tokens)`:
the name is truthy (non-empty) and no exclusion token occurs in it
lower-cased. -/
def nameOk (name : String) (tokens : List String) : Bool :=
  !(name == "") && !tokens.any (fun t => strContains (lowerStr name) t)

/-- Splits the maximal run of decimal digits from the front of `cs`. -/
def spanDigits : List Char → List Char × List Char
  | [] => ([], [])
  | c :: cs =>
    if c.isDigit then
      let p := spanDigits cs
      (c :: p.1, p.2)
    else ([], c :: cs)

/-- Value of a digit run read in base 10. -/
def digitsToNat (ds : List Char) : Nat :=
  ds.foldl (fun acc c => 10 * acc + (c.toNat - 48)) 0

/-- Value of a decimal literal given by the digit runs before and after the
dot: the integer the digits spell, divided by ten to the number of fraction
digits. -/
def decVal (ip fp : List Char) : ℚ :=
  mkRat (digitsToNat ip * 10 ^ fp.length + digitsToNat fp) (10 ^ fp.length)

/-- The mantissa of a decimal literal: `digits`, `digits.digits`, `digits.`
or `.digits`; returns the digit runs and the unconsumed characters. -/
def decMantissa (cs : List Char) :
    Option ((List Char × List Char) × List Char) :=
  let ip := spanDigits cs
  match ip.2 with
  | '.' :: r2 =>
    let fp := spanDigits r2
    if ip.1.isEmpty && fp.1.isEmpty then none
    else some ((ip.1, fp.1), fp.2)
  | r =>
    if ip.1.isEmpty then none else some ((ip.1, []), r)

/-- An exponent suffix `e`/`E`, optional sign, digits; returns the signed
exponent and the unconsumed characters. -/
def expPart (cs : List Char) : Option (Int × List Char) :=
  match cs with
  | 'e' :: rest | 'E' :: rest =>
    match rest with
    | '+' :: r =>
      let d := spanDigits r
      if d.1.isEmpty then none else some ((digitsToNat d.1 : Int), d.2)
    | '-' :: r =>
      let d := spanDigits r
      if d.1.isEmpty then none else some (-(digitsToNat d.1 : Int), d.2)
    | r =>
      let d := spanDigits r
      if d.1.isEmpty then none else some ((digitsToNat d.1 : Int), d.2)
  | _ => none

/-- Model of Python `float(text)` wrapped in try/except (lines 72-82): some
value on a decimal literal with optional sign and exponent, none when float
raises ValueError. The inputs are already trimmed by get_text, so surrounding
whitespace does not arise; the inf/nan spellings, accepted by Python but
always outside the range guard 0 < score, are mapped to none, which yields the
same extraction result. -/
def sciVal (neg : Bool) (ip fp : List Char) (e : Int) : ℚ :=
  let n : Nat := digitsToNat ip * 10 ^ fp.length + digitsToNat fp
  let num : Int := if neg then -(n : Int) else (n : Int)
  if 0 ≤ e then mkRat (num * 10 ^ e.toNat) (10 ^ fp.length)
  else mkRat num (10 ^ fp.length * 10 ^ (-e).toNat)

/-- Model of Python float(text), continued: split off the sign, read the
mantissa and the optional exponent, require that nothing is left over. -/
def pyFloat (s : String) : Option ℚ :=
  let cs := s.toList
  let sgn : Bool × List Char :=
    match cs with
    | '+' :: r => (false, r)
    | '-' :: r => (true, r)
    | r => (false, r)
  match decMantissa sgn.2 with
  | none => none
  | some (ds, r) =>
    match r with
    | [] => some (sciVal sgn.1 ds.1 ds.2 0)
    | _ =>
      match expPart r with
      | some (e, []) => some (sciVal sgn.1 ds.1 ds.2 e)
      | _ => none

/-- The greedy match of the pattern group `\d+\.?\d*` anchored at the current
position: a maximal digit run, then optionally one dot and a maximal digit
run. Returns none when no digit starts here. The trailing optional percent
sign of the full pattern is outside the captured group and never affects the
value. -/
def matchNum (cs : List Char) : Option ℚ :=
  let ip := spanDigits cs
  if ip.1.isEmpty then none
  else
    match ip.2 with
    | '.' :: r2 =>
      let fp := spanDigits r2
      some (decVal ip.1 fp.1)
    | _ => some (decVal ip.1 [])

/-- Model of re.search with that pattern followed by float on group 1 (lines
116-118): try the pattern at each position from the left, return the first
match value. -/
def searchNum : List Char → Option ℚ
  | [] => none
  | c :: cs =>
    match matchNum (c :: cs) with
    | some v => some v
    | none => searchNum cs

/-- The bare-float cell test of scrape_artificial_analysis (lines 72-74):
float(text) must succeed and the value satisfy 0 < score < 100. -/
def bareScore (text : String) : Option ℚ :=
  match pyFloat text with
  | some v => if 0 < v ∧ v < 100 then some v else none
  | none => none

/-- The percentage cell test of scrape_swebench and scrape_hle (lines 116-119
and 158-161): the regex search must find a number and the value satisfy
0 < score ≤ 100. -/
def pctScore (text : String) : Option ℚ :=
  match searchNum text.toList with
  | some v => if 0 < v ∧ v ≤ 100 then some v else none
  | none => none

/-- One row of a table (lines 63-82 and analogues): it qualifies when it has
at least two cells; the first cell is the candidate name and every later cell
whose text passes the numeric test emits one entry, guarded by the name
check. -/
def extractRow (score : String → Option ℚ) (tokens : List String)
    (row : List String) : List Entry :=
  match row with
  | [] => []
  | name :: rest =>
    if rest.isEmpty then []
    else
      rest.filterMap (fun text =>
        match score text with
        | some v =>
          if nameOk name tokens then
            some { name := name, provider := extract_provider name, score := v }
          else none
        | none => none)

/-- One table: the first row (assumed header) is skipped, the remaining rows
are extracted in order. -/
def extractTable (score : String → Option ℚ) (tokens : List String)
    (table : List (List String)) : List Entry :=
  (table.drop 1).flatMap (extractRow score tokens)

/-- One page: all tables in document order. -/
def extractPage (score : String → Option ℚ) (tokens : List String)
    (page : List (List (List String))) : List Entry :=
  page.flatMap (extractTable score tokens)

/-- A parsed page: tables, rows, trimmed cell texts. -/
abbrev Page := List (List (List String))

/-- Model of `_fallback_intelligence_index` (lines 200-214). -/
def fallback_intelligence_index : List Entry :=
  [⟨"Claude Opus 4.6 (max)", "Anthropic", mkRat 5303 100⟩,
   ⟨"Claude Sonnet 4.6 (max)", "Anthropic", mkRat 5127 100⟩,
   ⟨"GPT-5.2 (xhigh)", "OpenAI", mkRat 5124 100⟩,
   ⟨"Claude Opus 4.5", "Anthropic", mkRat 4969 100⟩,
   ⟨"GLM-5", "Z AI", mkRat 4964 100⟩,
   ⟨"GPT-5.2 Codex (xhigh)", "OpenAI", mkRat 4898 100⟩,
   ⟨"Gemini 3 Pro Preview (high)", "Google", mkRat 4844 100⟩,
   ⟨"GPT-5.1 (high)", "OpenAI", mkRat 4756 100⟩,
   ⟨"Kimi K2.5", "Moonshot AI", mkRat 4673 100⟩,
   ⟨"GPT-5.2 (medium)", "OpenAI", mkRat 4658 100⟩,
   ⟨"Gemini 3 Flash", "Google", mkRat 4640 100⟩]

/-- Model of `_fallback_swebench` (lines 216-229). -/
def fallback_swebench : List Entry :=
  [⟨"Claude 4.5 Opus medium (20251101)", "Anthropic", mkRat 7440 100⟩,
   ⟨"Gemini 3 Pro Preview (2025-11-18)", "Google DeepMind", mkRat 7420 100⟩,
   ⟨"GPT-5.2 (2025-12-11) (high reasoning)", "OpenAI", mkRat 7180 100⟩,
   ⟨"Claude 4.5 Sonnet (20250929)", "Anthropic", mkRat 7060 100⟩,
   ⟨"GPT-5.2 (2025-12-11)", "OpenAI", mkRat 6900 100⟩,
   ⟨"Claude 4 Opus (20250514)", "Anthropic", mkRat 6760 100⟩,
   ⟨"GPT-5.1-codex (medium reasoning)", "OpenAI", mkRat 6600 100⟩,
   ⟨"GPT-5.1 (2025-11-13) (medium reasoning)", "OpenAI", mkRat 6600 100⟩,
   ⟨"GPT-5 (2025-08-07) (medium reasoning)", "OpenAI", mkRat 6500 100⟩,
   ⟨"Claude 4 Sonnet (20250514)", "Anthropic", mkRat 6493 100⟩]

/-- Model of `_fallback_hle` (lines 231-244). -/
def fallback_hle : List Entry :=
  [⟨"Gemini 3 Pro Preview", "Google", mkRat 3752 100⟩,
   ⟨"Claude Opus 4.6 (Thinking Max)", "Anthropic", mkRat 3444 100⟩,
   ⟨"GPT-5 Pro (2025-10-06)", "OpenAI", mkRat 3164 100⟩,
   ⟨"GPT-5.2 (2025-12-11)", "OpenAI", mkRat 2780 100⟩,
   ⟨"GPT-5 (2025-08-07)", "OpenAI", mkRat 2532 100⟩,
   ⟨"Claude Opus 4.5 Thinking", "Anthropic", mkRat 2520 100⟩,
   ⟨"Kimi K2.5", "Moonshot AI", mkRat 2437 100⟩,
   ⟨"GPT-5.1 Thinking", "OpenAI", mkRat 2368 100⟩,
   ⟨"Gemini 2.5 Pro Preview", "Google", mkRat 2164 100⟩,
   ⟨"o3 (high) (April 2025)", "OpenAI", mkRat 2032 100⟩]

/-- The shared data record `self.data` built in `__init__` (lines 25-36). -/
structure Snapshot where
  intelligenceIndex : List Entry
  swebench : List Entry
  hle : List Entry
  lastUpdate : String
  sources : List (String × String)
deriving DecidableEq

/-- Model of `__init__`: empty lists, the construction-time timestamp, and the
fixed source URLs. -/
def initData (now : String) : Snapshot :=
  { intelligenceIndex := []
    swebench := []
    hle := []
    lastUpdate := now
    sources :=
      [("artificialAnalysis", "https://artificialanalysis.ai"),
       ("swebench", "https://www.swebench.com"),
       ("hle", "https://artificialanalysis.ai/evaluations/humanitys-last-exam")]
  }

/-- Model of `scrape_artificial_analysis` (lines 38-88): on a successful
fetch, append the live extraction to the intelligenceIndex list; on an
exception, assign the fallback table, discarding the previous list value. -/
def scrape_artificial_analysis (s : Snapshot) (fetched : Except Unit Page) :
    Snapshot :=
  match fetched with
  | .ok page =>
    { s with intelligenceIndex :=
        s.intelligenceIndex ++ extractPage bareScore tokensII page }
  | .error _ => { s with intelligenceIndex := fallback_intelligence_index }

/-- Model of `scrape_swebench` (lines 90-130). -/
def scrape_swebench (s : Snapshot) (fetched : Except Unit Page) : Snapshot :=
  match fetched with
  | .ok page =>
    { s with swebench := s.swebench ++ extractPage pctScore tokensSwe page }
  | .error _ => { s with swebench := fallback_swebench }

/-- Model of `scrape_hle` (lines 132-172). -/
def scrape_hle (s : Snapshot) (fetched : Except Unit Page) : Snapshot :=
  match fetched with
  | .ok page =>
    { s with hle := s.hle ++ extractPage pctScore tokensHle page }
  | .error _ => { s with hle := fallback_hle }

/-- Descending order on entries by score: the comparison realised by
`sort(key=lambda x: x["score"], reverse=True)`. -/
def scoreGE (a b : Entry) : Prop := b.score ≤ a.score

instance : DecidableRel scoreGE :=
  fun a b => inferInstanceAs (Decidable (b.score ≤ a.score))

instance : IsTotal Entry scoreGE := ⟨fun a b => le_total b.score a.score⟩

instance : IsTrans Entry scoreGE := ⟨fun _ _ _ h1 h2 => le_trans h2 h1⟩

/-- Model of Python `list.sort(key=lambda x: x["score"], reverse=True)`
(lines 257-259): a stable descending sort by score. Stable sorting under a
total preorder determines the output list uniquely, so the stable insertion
sort computes the same list as CPython timsort. -/
def sortDesc (l : List Entry) : List Entry :=
  l.insertionSort scoreGE

/-- The state of `self.data` in `run` (lines 246-254) after the three
pipelines and before sorting. -/
def runRaw (now : String) (f1 f2 f3 : Except Unit Page) : Snapshot :=
  scrape_hle (scrape_swebench (scrape_artificial_analysis (initData now) f1) f2) f3

/-- Model of `run` (lines 246-273): three pipelines in sequence, then each
list sorted descending by score; the returned value is what is serialised. -/
def run (now : String) (f1 f2 f3 : Except Unit Page) : Snapshot :=
  let s := runRaw now f1 f2 f3
  { s with
      intelligenceIndex := sortDesc s.intelligenceIndex
      swebench := sortDesc s.swebench
      hle := sortDesc s.hle }

/-- Modelled from the spec: the ordered keyword table of the Provider
Classifier as section 4.3 words it, with first match winning; used only to
compare the source if/elif chain against the spec wording. -/
def providerTable : List (String × String) :=
  [("claude", "Anthropic"), ("gpt", "OpenAI"), ("openai", "OpenAI"),
   ("gemini", "Google"), ("google", "Google"),
   ("kimi", "Moonshot AI"), ("moonshot", "Moonshot AI"),
   ("glm", "Z AI"), ("qwen", "Alibaba"), ("deepseek", "DeepSeek"),
   ("minimax", "Minimax"), ("llama", "Meta"), ("meta", "Meta"),
   ("mistral", "Mistral")]

/-- Modelled from the spec: first-match lookup in the ordered keyword
table, defaulting to Unknown. -/
def firstMatch (name : String) : String :=
  match providerTable.find? (fun kv => strContains (lowerStr name) kv.1) with
  | some kv => kv.2
  | none => "Unknown"

/-- The per-source entry invariant of the spec data model: score in the open
interval for the bare-float profile when `strict` is true, in the open-closed
interval otherwise, a non-empty name, and no exclusion token in the
lower-cased name. -/
def entryInv (strict : Bool) (tokens : List String) (e : Entry) : Prop :=
  0 < e.score ∧ (if strict then e.score < 100 else e.score ≤ 100) ∧
    e.name ≠ "" ∧ ∀ t ∈ tokens, strContains (lowerStr e.name) t = false

instance (strict : Bool) (tokens : List String) (e : Entry) :
    Decidable (entryInv strict tokens e) := by
  unfold entryInv
  infer_instance

/-! ### Helper lemmas -/

/-- A bare-float cell value always lies strictly inside the guard bounds. -/
theorem bareScore_range {t : String} {v : ℚ} (h : bareScore t = some v) :
    0 < v ∧ v < 100 := by
  unfold bareScore at h
  split at h
  · split at h
    · cases h; assumption
    · cases h
  · cases h

/-- A percentage cell value always lies inside the guard bounds. -/
theorem pctScore_range {t : String} {v : ℚ} (h : pctScore t = some v) :
    0 < v ∧ v ≤ 100 := by
  unfold pctScore at h
  split at h
  · split at h
    · cases h; assumption
    · cases h
  · cases h

/-- Unfolding of a successful name check. -/
theorem nameOk_spec {name : String} {tokens : List String}
    (h : nameOk name tokens = true) :
    name ≠ "" ∧ ∀ t ∈ tokens, strContains (lowerStr name) t = false := by
  unfold nameOk at h
  simp only [Bool.and_eq_true, Bool.not_eq_true', beq_eq_false_iff_ne, ne_eq,
    List.any_eq_true, not_exists, not_and] at h
  refine ⟨h.1, fun t ht => ?_⟩
  have := h.2
  rw [List.any_eq_false] at this
  simpa using this t ht

/-- Every entry a row emits was produced from some qualifying cell, carries
the classifier provider, and passed the name check. -/
theorem mem_extractRow {score : String → Option ℚ} {tokens : List String}
    {row : List String} {e : Entry} (h : e ∈ extractRow score tokens row) :
    (∃ text, score text = some e.score) ∧
      e.provider = extract_provider e.name ∧ nameOk e.name tokens = true := by
  cases row with
  | nil => simp [extractRow] at h
  | cons name rest =>
    simp only [extractRow] at h
    split at h
    · simp at h
    · obtain ⟨text, htext, hsome⟩ := List.mem_filterMap.mp h
      cases hs : score text with
      | none => exact Option.noConfusion (by simpa only [hs] using hsome)
      | some v =>
        simp only [hs] at hsome
        split at hsome
        · cases hsome
          exact ⟨⟨text, hs⟩, rfl, by assumption⟩
        · exact Option.noConfusion hsome

/-- The page-level version of `mem_extractRow`. -/
theorem mem_extractPage {score : String → Option ℚ} {tokens : List String}
    {page : Page} {e : Entry} (h : e ∈ extractPage score tokens page) :
    (∃ text, score text = some e.score) ∧
      e.provider = extract_provider e.name ∧ nameOk e.name tokens = true := by
  unfold extractPage extractTable at h
  obtain ⟨table, _, ht⟩ := List.mem_flatMap.mp h
  obtain ⟨row, _, hr⟩ := List.mem_flatMap.mp ht
  exact mem_extractRow hr

/-- The intelligenceIndex list after the three pipelines, by fetch outcome. -/
theorem runRaw_intelligenceIndex (now : String) (f1 f2 f3 : Except Unit Page) :
    (runRaw now f1 f2 f3).intelligenceIndex =
      match f1 with
      | .ok page => extractPage bareScore tokensII page
      | .error _ => fallback_intelligence_index := by
  cases f1 <;> cases f2 <;> cases f3 <;> rfl

/-- The swebench list after the three pipelines, by fetch outcome. -/
theorem runRaw_swebench (now : String) (f1 f2 f3 : Except Unit Page) :
    (runRaw now f1 f2 f3).swebench =
      match f2 with
      | .ok page => extractPage pctScore tokensSwe page
      | .error _ => fallback_swebench := by
  cases f1 <;> cases f2 <;> cases f3 <;> rfl

/-- The hle list after the three pipelines, by fetch outcome. -/
theorem runRaw_hle (now : String) (f1 f2 f3 : Except Unit Page) :
    (runRaw now f1 f2 f3).hle =
      match f3 with
      | .ok page => extractPage pctScore tokensHle page
      | .error _ => fallback_hle := by
  cases f1 <;> cases f2 <;> cases f3 <;> rfl

/-- Every fallback intelligence-index entry satisfies the bare-float
invariant. -/
theorem fallback_intelligence_index_inv :
    ∀ e ∈ fallback_intelligence_index, entryInv true tokensII e := by decide

/-- Every fallback SWE-Bench entry satisfies the percentage invariant. -/
theorem fallback_swebench_inv :
    ∀ e ∈ fallback_swebench, entryInv false tokensSwe e := by decide

/-- Every fallback HLE entry satisfies the percentage invariant. -/
theorem fallback_hle_inv :
    ∀ e ∈ fallback_hle, entryInv false tokensHle e := by decide

/-- A live entry satisfies the invariant of its profile. -/
theorem live_entry_inv {score : String → Option ℚ} {tokens : List String}
    {page : Page} {e : Entry} (strict : Bool)
    (hrange : ∀ t v, score t = some v →
      0 < v ∧ (if strict then v < 100 else v ≤ 100))
    (h : e ∈ extractPage score tokens page) : entryInv strict tokens e := by
  obtain ⟨⟨text, hs⟩, _, hname⟩ := mem_extractPage h
  obtain ⟨hne, htok⟩ := nameOk_spec hname
  obtain ⟨h1, h2⟩ := hrange text e.score hs
  exact ⟨h1, h2, hne, htok⟩

/-! ### Claims -/

/-- Claim C1: every entry present in any of the three output lists of a run,
whether produced by live extraction or by fallback substitution, satisfies
the LeaderboardEntry invariant of its source: score strictly within (0,100)
for intelligenceIndex and within (0,100] for swebench and hle, a non-empty
name, and no source exclusion token in the lower-cased name. -/
theorem spec_c1 (now : String) (f1 f2 f3 : Except Unit Page) (e : Entry) :
    (e ∈ (run now f1 f2 f3).intelligenceIndex → entryInv true tokensII e) ∧
    (e ∈ (run now f1 f2 f3).swebench → entryInv false tokensSwe e) ∧
    (e ∈ (run now f1 f2 f3).hle → entryInv false tokensHle e) := by
  refine ⟨fun hmem => ?_, fun hmem => ?_, fun hmem => ?_⟩
  · rw [show (run now f1 f2 f3).intelligenceIndex =
        List.insertionSort scoreGE (runRaw now f1 f2 f3).intelligenceIndex
        from rfl, List.mem_insertionSort, runRaw_intelligenceIndex] at hmem
    cases f1 with
    | ok page =>
      exact live_entry_inv true
        (fun t v hv => by simpa using bareScore_range hv) hmem
    | error u => exact fallback_intelligence_index_inv e hmem
  · rw [show (run now f1 f2 f3).swebench =
        List.insertionSort scoreGE (runRaw now f1 f2 f3).swebench
        from rfl, List.mem_insertionSort, runRaw_swebench] at hmem
    cases f2 with
    | ok page =>
      exact live_entry_inv false
        (fun t v hv => by simpa using pctScore_range hv) hmem
    | error u => exact fallback_swebench_inv e hmem
  · rw [show (run now f1 f2 f3).hle =
        List.insertionSort scoreGE (runRaw now f1 f2 f3).hle
        from rfl, List.mem_insertionSort, runRaw_hle] at hmem
    cases f3 with
    | ok page =>
      exact live_entry_inv false
        (fun t v hv => by simpa using pctScore_range hv) hmem
    | error u => exact fallback_hle_inv e hmem

/-- Witness for C1 at a concrete run: one live page for the first source and
fallback for the other two. -/
theorem spec_c1_w :
    entryInv true tokensII ⟨"Claude Opus 4.5", "Anthropic", 53⟩ :=
  (spec_c1 "t" (.ok [[["Rank", "Model", "Score"], ["Claude Opus 4.5", "53.0"]]])
      (.error ()) (.error ()) ⟨"Claude Opus 4.5", "Anthropic", 53⟩).1
    (by decide)

/-- Claim C2: the fallback table is substituted exactly when the try-block
exits via an exception: on an error the output list equals the static
fallback table whatever was accumulated before, on a successful fetch the
list is the accumulated extraction, and a successful extraction matching
zero rows leaves the list empty rather than substituting the fallback. -/
theorem spec_c2 (s : Snapshot) (page : Page) (now : String) :
    ((scrape_artificial_analysis s (.error ())).intelligenceIndex =
        fallback_intelligence_index ∧
      (scrape_swebench s (.error ())).swebench = fallback_swebench ∧
      (scrape_hle s (.error ())).hle = fallback_hle) ∧
    ((scrape_artificial_analysis s (.ok page)).intelligenceIndex =
        s.intelligenceIndex ++ extractPage bareScore tokensII page ∧
      (scrape_swebench s (.ok page)).swebench =
        s.swebench ++ extractPage pctScore tokensSwe page ∧
      (scrape_hle s (.ok page)).hle =
        s.hle ++ extractPage pctScore tokensHle page) ∧
    (extractPage bareScore tokensII page = [] →
      (scrape_artificial_analysis (initData now) (.ok page)).intelligenceIndex
        = []) ∧
    (extractPage pctScore tokensSwe page = [] →
      (scrape_swebench (initData now) (.ok page)).swebench = []) ∧
    (extractPage pctScore tokensHle page = [] →
      (scrape_hle (initData now) (.ok page)).hle = []) := by
  refine ⟨⟨rfl, rfl, rfl⟩, ⟨rfl, rfl, rfl⟩, ?_, ?_, ?_⟩ <;> intro hz <;>
    simp [scrape_artificial_analysis, scrape_swebench, scrape_hle, initData, hz]

/-- Witness for C2: a page whose rows have no qualifying cell extracts to the
empty list, not the fallback. -/
theorem spec_c2_w :
    (scrape_artificial_analysis (initData "t")
        (.ok [[["Rank", "Model"], ["x", "header"]]])).intelligenceIndex = [] ∧
    (scrape_swebench (initData "t") (.ok [])).swebench = [] ∧
    (scrape_hle (initData "t") (.ok [])).hle = [] :=
  ⟨(spec_c2 (initData "t") [[["Rank", "Model"], ["x", "header"]]] "t").2.2.1
      (by decide),
   (spec_c2 (initData "t") [] "t").2.2.2.1 (by decide),
   (spec_c2 (initData "t") [] "t").2.2.2.2 (by decide)⟩

/-- Claim C5: on a table with header row Rank, Model, Score and a data row
with name Claude Opus 4.5 and cell 53.0, the bare-float extractor yields
exactly that one entry with provider Anthropic; and the first row of every
table is skipped, so the extraction never depends on the header row. -/
theorem spec_c5 :
    extractPage bareScore tokensII
        [[["Rank", "Model", "Score"], ["Claude Opus 4.5", "53.0"]]] =
      [⟨"Claude Opus 4.5", "Anthropic", 53⟩] ∧
    ∀ (score : String → Option ℚ) (tokens : List String)
      (hdr hdr2 : List String) (rows : List (List String)),
      extractTable score tokens (hdr :: rows) =
        extractTable score tokens (hdr2 :: rows) :=
  ⟨by decide, fun _ _ _ _ _ => rfl⟩

/-- Claim C8: two runs over identical page content produce identical lists
and sources mapping, whatever the two timestamps are. -/
theorem spec_c8 (t1 t2 : String) (f1 f2 f3 : Except Unit Page) :
    (run t1 f1 f2 f3).intelligenceIndex = (run t2 f1 f2 f3).intelligenceIndex ∧
    (run t1 f1 f2 f3).swebench = (run t2 f1 f2 f3).swebench ∧
    (run t1 f1 f2 f3).hle = (run t2 f1 f2 f3).hle ∧
    (run t1 f1 f2 f3).sources = (run t2 f1 f2 f3).sources := by
  cases f1 <;> cases f2 <;> cases f3 <;> exact ⟨rfl, rfl, rfl, rfl⟩

/-- Claim C10: the constructor sets the timestamp and the other metadata
before any fetching, and each pipeline modifies only its own list field:
the other two lists, the sources mapping and the lastUpdate value are
unchanged whether the pipeline took the live or the fallback path. -/
theorem spec_c10 (s : Snapshot) (f : Except Unit Page) (now : String) :
    ((initData now).intelligenceIndex = [] ∧ (initData now).swebench = [] ∧
      (initData now).hle = [] ∧ (initData now).lastUpdate = now) ∧
    ((scrape_artificial_analysis s f).swebench = s.swebench ∧
      (scrape_artificial_analysis s f).hle = s.hle ∧
      (scrape_artificial_analysis s f).sources = s.sources ∧
      (scrape_artificial_analysis s f).lastUpdate = s.lastUpdate) ∧
    ((scrape_swebench s f).intelligenceIndex = s.intelligenceIndex ∧
      (scrape_swebench s f).hle = s.hle ∧
      (scrape_swebench s f).sources = s.sources ∧
      (scrape_swebench s f).lastUpdate = s.lastUpdate) ∧
    ((scrape_hle s f).intelligenceIndex = s.intelligenceIndex ∧
      (scrape_hle s f).swebench = s.swebench ∧
      (scrape_hle s f).sources = s.sources ∧
      (scrape_hle s f).lastUpdate = s.lastUpdate) := by
  cases f <;>
    exact ⟨⟨rfl, rfl, rfl, rfl⟩, ⟨rfl, rfl, rfl, rfl⟩, ⟨rfl, rfl, rfl, rfl⟩,
      ⟨rfl, rfl, rfl, rfl⟩⟩

/-- Filtering the entries of one score value commutes with an ordered insert:
an equal-scored element is inserted in front of the equal-scored entries
already present, never between or behind them. -/
theorem filter_orderedInsert (sval : ℚ) (a : Entry) (m : List Entry) :
    (List.orderedInsert scoreGE a m).filter (fun e => decide (e.score = sval)) =
      if a.score = sval then
        a :: m.filter (fun e => decide (e.score = sval))
      else m.filter (fun e => decide (e.score = sval)) := by
  induction m with
  | nil =>
    simp only [List.orderedInsert, List.filter_cons, List.filter_nil,
      decide_eq_true_eq]
  | cons b m ih =>
    by_cases hr : scoreGE a b
    · rw [List.orderedInsert, if_pos hr]
      simp only [List.filter_cons, decide_eq_true_eq]
    · rw [List.orderedInsert, if_neg hr]
      simp only [List.filter_cons, ih, decide_eq_true_eq]
      by_cases h1 : a.score = sval <;> by_cases h2 : b.score = sval <;>
        simp_all [scoreGE]

/-- Stability of the descending sort: for every score value, the subsequence
of entries carrying that value is unchanged by the sort. -/
theorem filter_sortDesc (sval : ℚ) (l : List Entry) :
    (sortDesc l).filter (fun e => decide (e.score = sval)) =
      l.filter (fun e => decide (e.score = sval)) := by
  induction l with
  | nil => rfl
  | cons a l ih =>
    unfold sortDesc at ih
    show (List.orderedInsert scoreGE a
        (List.insertionSort scoreGE l)).filter _ = _
    rw [filter_orderedInsert]
    by_cases h : a.score = sval <;> simp [h, List.filter_cons, ih]

/-- Claim C3: after run, each of the three output lists is pairwise sorted
descending by score, and the sort is stable: for every score value the
entries carrying it keep the order in which they were encountered before
sorting. -/
theorem spec_c3 (now : String) (f1 f2 f3 : Except Unit Page) (sval : ℚ) :
    ((run now f1 f2 f3).intelligenceIndex.Pairwise scoreGE ∧
      (run now f1 f2 f3).swebench.Pairwise scoreGE ∧
      (run now f1 f2 f3).hle.Pairwise scoreGE) ∧
    ((run now f1 f2 f3).intelligenceIndex.filter
          (fun e => decide (e.score = sval)) =
        (runRaw now f1 f2 f3).intelligenceIndex.filter
          (fun e => decide (e.score = sval)) ∧
      (run now f1 f2 f3).swebench.filter (fun e => decide (e.score = sval)) =
        (runRaw now f1 f2 f3).swebench.filter
          (fun e => decide (e.score = sval)) ∧
      (run now f1 f2 f3).hle.filter (fun e => decide (e.score = sval)) =
        (runRaw now f1 f2 f3).hle.filter (fun e => decide (e.score = sval))) :=
  ⟨⟨List.sorted_insertionSort scoreGE _, List.sorted_insertionSort scoreGE _,
    List.sorted_insertionSort scoreGE _⟩,
   filter_sortDesc sval _, filter_sortDesc sval _, filter_sortDesc sval _⟩

/-- Claim C4: the provider classifier is the first-match lookup in the
ordered keyword table of the spec, and the four sample names classify as the
spec states. -/
theorem spec_c4 :
    (∀ name, extract_provider name = firstMatch name) ∧
    extract_provider "Claude Opus 4.5" = "Anthropic" ∧
    extract_provider "GLM-5" = "Z AI" ∧
    extract_provider "Qwen-Max" = "Alibaba" ∧
    extract_provider "Foo-Bar-1" = "Unknown" := by
  refine ⟨fun name => ?_, by decide, by decide, by decide, by decide⟩
  simp only [extract_provider, firstMatch, providerTable, List.find?]
  cases h1 : strContains (lowerStr name) "claude" with
  | true => simp [h1]
  | false =>
  simp only [h1, Bool.false_eq_true, if_false]
  cases h2 : strContains (lowerStr name) "gpt" with
  | true => simp [h2]
  | false =>
  simp only [h2, Bool.false_or]
  cases h3 : strContains (lowerStr name) "openai" with
  | true => simp [h3]
  | false =>
  simp only [h3, Bool.false_eq_true, if_false]
  cases h4 : strContains (lowerStr name) "gemini" with
  | true => simp [h4]
  | false =>
  simp only [h4, Bool.false_or]
  cases h5 : strContains (lowerStr name) "google" with
  | true => simp [h5]
  | false =>
  simp only [h5, Bool.false_eq_true, if_false]
  cases h6 : strContains (lowerStr name) "kimi" with
  | true => simp [h6]
  | false =>
  simp only [h6, Bool.false_or]
  cases h7 : strContains (lowerStr name) "moonshot" with
  | true => simp [h7]
  | false =>
  simp only [h7, Bool.false_eq_true, if_false]
  cases h8 : strContains (lowerStr name) "glm" with
  | true => simp [h8]
  | false =>
  simp only [h8, Bool.false_eq_true, if_false]
  cases h9 : strContains (lowerStr name) "qwen" with
  | true => simp [h9]
  | false =>
  simp only [h9, Bool.false_eq_true, if_false]
  cases h10 : strContains (lowerStr name) "deepseek" with
  | true => simp [h10]
  | false =>
  simp only [h10, Bool.false_eq_true, if_false]
  cases h11 : strContains (lowerStr name) "minimax" with
  | true => simp [h11]
  | false =>
  simp only [h11, Bool.false_eq_true, if_false]
  cases h12 : strContains (lowerStr name) "llama" with
  | true => simp [h12]
  | false =>
  simp only [h12, Bool.false_or]
  cases h13 : strContains (lowerStr name) "meta" with
  | true => simp [h13]
  | false =>
  simp only [h13, Bool.false_eq_true, if_false]
  cases h14 : strContains (lowerStr name) "mistral" with
  | true => simp [h14]
  | false =>
  simp [h14]

/-- Claim C6: a percentage-profile cell is accepted exactly when the regex
search finds a decimal number whose value lies in (0,100], and the sample
row GPT-5.2 with cell 74.40 percent yields that entry. -/
theorem spec_c6 :
    (∀ (text : String) (v : ℚ),
        pctScore text = some v ↔
          searchNum text.toList = some v ∧ 0 < v ∧ v ≤ 100) ∧
    extractRow pctScore tokensSwe ["GPT-5.2", "74.40%"] =
      [⟨"GPT-5.2", "OpenAI", mkRat 7440 100⟩] := by
  refine ⟨fun text v => ?_, by decide⟩
  unfold pctScore
  cases h : searchNum text.toList with
  | none => simp
  | some w =>
    show (if 0 < w ∧ w ≤ 100 then some w else none) = some v ↔
      some w = some v ∧ 0 < v ∧ v ≤ 100
    split_ifs with hw
    · constructor
      · intro h'
        cases h'
        exact ⟨rfl, hw⟩
      · intro h'
        cases h'.1
        rfl
    · constructor
      · intro h'
        cases h'
      · rintro ⟨h1, h2⟩
        cases h1
        exact absurd h2 hw

/-- Claim C7: a qualifying row emits one entry per qualifying numeric cell,
all sharing the first cell as name, and no deduplication happens downstream:
the sort preserves the length of every list. -/
theorem spec_c7 (name c0 : String) (cs : List String)
    (h : nameOk name tokensII = true) :
    extractRow bareScore tokensII (name :: c0 :: cs) =
      ((c0 :: cs).filterMap bareScore).map
        (fun v => ⟨name, extract_provider name, v⟩) ∧
    ∀ l : List Entry, (sortDesc l).length = l.length := by
  constructor
  · simp only [extractRow, List.isEmpty_cons, List.map_filterMap]
    refine List.filterMap_congr ?_
    intro t _
    cases bareScore t <;> simp [h]
  · exact fun l => (List.perm_insertionSort scoreGE l).length_eq

/-- Witness for C7: a row with two qualifying cells emits two entries with
the same name. -/
theorem spec_c7_w :
    extractRow bareScore tokensII ["Claude Opus 4.5", "53.0", "54.0"] =
      ((["53.0", "54.0"] : List String).filterMap bareScore).map
        (fun v => ⟨"Claude Opus 4.5", extract_provider "Claude Opus 4.5", v⟩) ∧
    ∀ l : List Entry, (sortDesc l).length = l.length :=
  spec_c7 "Claude Opus 4.5" "53.0" ["54.0"] (by decide)

/-- Claim C9: on every live extraction path the provider field is the
classifier applied to the name, but the SWE-Bench fallback table contains an
entry whose provider differs from what the classifier yields for its name. -/
theorem spec_c9 :
    (∀ (page : Page) (e : Entry),
        e ∈ extractPage bareScore tokensII page ∨
        e ∈ extractPage pctScore tokensSwe page ∨
        e ∈ extractPage pctScore tokensHle page →
        e.provider = extract_provider e.name) ∧
    ∃ e ∈ fallback_swebench, e.provider ≠ extract_provider e.name := by
  constructor
  · rintro page e (h | h | h) <;> exact (mem_extractPage h).2.1
  · exact ⟨⟨"Gemini 3 Pro Preview (2025-11-18)", "Google DeepMind",
      mkRat 7420 100⟩, by decide, by decide⟩

/-- Witness for C9 at a concrete page. -/
theorem spec_c9_w :
    (⟨"GPT-5.2", "OpenAI", mkRat 7440 100⟩ : Entry).provider =
      extract_provider (⟨"GPT-5.2", "OpenAI", mkRat 7440 100⟩ : Entry).name :=
  spec_c9.1 [[["h", "x"], ["GPT-5.2", "74.40%"]]]
    ⟨"GPT-5.2", "OpenAI", mkRat 7440 100⟩ (Or.inr (Or.inl (by decide)))
